import Mathlib

/-!
# stress-poll: a shallow embedding of `src/stress-poll.c`

The workload `stress_poll` creates five pipes, forks a writer child and lets the
parent wait on the read ends with `poll` and `select`.  The operating system is
an oracle: every system call result the code looks at is an input of the model,
and every call the code makes is recorded, in program order, in a list of
`Event`s.

Values taken from system headers (Linux): `EXIT_SUCCESS = 0`,
`EXIT_FAILURE = 1`, `POLLIN = 0x001`, `POLLHUP = 0x010`, `SIGKILL = 9`,
`EINTR = 4`.  `mwc()` returns a `uint64_t`; its values are inputs, reduced
modulo `2 ^ 64`.
-/

namespace StressPoll

/-! ## Constants -/

/-- The macro `MAX_PIPES` of stress-poll.c, line 38. -/
def MAX_PIPES : Nat := 5

/-- The macro `POLL_BUF` of stress-poll.c, line 39. -/
def POLL_BUF : Nat := 4

def EXIT_SUCCESS : Int := 0

def EXIT_FAILURE : Int := 1

def POLLIN : Int := 1

def POLLHUP : Int := 16

def SIGKILL : Int := 9

def EINTR : Int := 4

/-- Number of values of a `uint64_t`. -/
def UINT64_SIZE : Nat := 2 ^ 64

/-- The character constant `'0'`. -/
def CHAR_0 : Int := 48

/-- Message of the first `pr_fail` of `pipe_read` (line 49). -/
def MSG_READ_ERROR : String := "pipe read error detected\n"

/-- Message of the second `pr_fail` of `pipe_read` (line 57). -/
def MSG_DATA_ERROR : String := "pipe read error, expecting different data on pipe\n"

/-- Format of the `pr_fail` after `poll` (line 146). -/
def MSG_POLL_FAILED : String := "poll failed with error: %d (%s)\n"

/-- Format of the `pr_fail` after `select` (line 161). -/
def MSG_SELECT_FAILED : String := "select failed with error: %d (%s)\n"

/-! ## Observable calls -/

/-- One call made by the code, with the arguments that matter. -/
inductive Event where
  | pipe (i : Nat)
  | pr_failed_dbg (what : String)
  | pr_fail (msg : String) (args : List Int)
  | close (fd : Int)
  | fork
  | write (fd : Int) (buf : List Int)
  | exit (status : Int)
  | poll (fds : List Int) (timeout : Nat)
  | read (fd : Int) (count : Nat)
  | select (nfds : Int) (rfds : List Int) (sec : Nat) (usec : Nat)
  | sleep (seconds : Nat)
  | kill (pid : Int) (sig : Int)
  deriving DecidableEq, Repr

/-- What one `read(fd, buf, sizeof(buf))` gave: the return value and the
contents of `buf` afterwards, each `buf[i]` as the `int` it promotes to. -/
structure ReadRes where
  ret : Int
  buf : Nat → Int

/-! ## pipe_read (lines 41-63) -/

/-- The loop `for (i = 0; i < ret; i++)` of `pipe_read`, entered at index `i`
with `rem` rounds to go: the first byte that is not `'0' + n` gives one
`pr_fail` and returns. -/
def verify_bytes (buf : Nat → Int) (n : Int) : Nat → Nat → List Event
  | 0, _ => []
  | rem + 1, i =>
    if buf i ≠ CHAR_0 + n then [Event.pr_fail MSG_DATA_ERROR []]
    else verify_bytes buf n rem (i + 1)

/-- The function `pipe_read(fd, n)`; `verify` is `opt_flags & OPT_FLAGS_VERIFY`
and `rd` what the read returned. -/
def pipe_read (verify : Bool) (rd : ReadRes) (fd : Int) (n : Int) : List Event :=
  Event.read fd POLL_BUF ::
    (if verify then
      if rd.ret < 0 then [Event.pr_fail MSG_READ_ERROR []]
      else if rd.ret > 0 then verify_bytes rd.buf n rd.ret.toNat 0
      else []
    else [])

/-! ## The pipe table -/

/-- Argument of `pr_failed_dbg` at line 84. -/
def WHAT_PIPE : String := "pipe"

/-- Argument of `pr_failed_dbg` at line 95. -/
def WHAT_FORK : String := "fork"

/-- Argument of `pr_failed_dbg` at line 112. -/
def WHAT_WRITE : String := "write"

/-- The read end `pipefds[i][0]`.  A row that no `pipe` call filled reads as
`0` here; the code reads such a row on no path. -/
def rfd (pipefds : List (Int × Int)) (i : Nat) : Int := (pipefds.getD i (0, 0)).1

/-- The write end `pipefds[i][1]`. -/
def wfd (pipefds : List (Int × Int)) (i : Nat) : Int := (pipefds.getD i (0, 0)).2

/-- The rollback loop `while (--i >= 0)` of lines 85-88, entered with the
index `i` of the pipe that failed. -/
def unwind_pipes (pipefds : List (Int × Int)) : Nat → List Event
  | 0 => []
  | i + 1 =>
    Event.close (rfd pipefds i) :: Event.close (wfd pipefds i) :: unwind_pipes pipefds i

/-- The creation loop of lines 82-91 from index `i` on, `rem` rounds to go;
`pipe_res i` is what `pipe(pipefds[i])` stored, `none` when it returned a
negative value.  Gives the filled table, or `none` after the rollback. -/
def create_pipes (pipe_res : Nat → Option (Int × Int)) :
    Nat → Nat → List (Int × Int) → Option (List (Int × Int)) × List Event
  | 0, _, pipefds => (some pipefds, [])
  | rem + 1, i, pipefds =>
    match pipe_res i with
    | none =>
      (none, Event.pipe i :: Event.pr_failed_dbg WHAT_PIPE :: unwind_pipes pipefds i)
    | some p =>
      let r := create_pipes pipe_res rem (i + 1) (pipefds ++ [p])
      (r.1, Event.pipe i :: r.2)

/-- The loop at the label `tidy` (lines 184-187), from index `i` on. -/
def tidy (pipefds : List (Int × Int)) : Nat → Nat → List Event
  | 0, _ => []
  | rem + 1, i =>
    Event.close (rfd pipefds i) :: Event.close (wfd pipefds i) :: tidy pipefds rem (i + 1)

/-! ## The writer child (lines 99-119) -/

/-- The index `(mwc() >> 8) % MAX_PIPES` of line 110. -/
def producer_index (r : Nat) : Nat := ((r % UINT64_SIZE) >>> 8) % MAX_PIPES

/-- The buffer after `memset(buf, '0' + i, sizeof(buf))` (line 107): the value
is stored as an `unsigned char`. -/
def memset_buf (i : Int) : List Int := List.replicate POLL_BUF ((CHAR_0 + i) % 256)

/-- The loop `for (;;)` of lines 104-115: round `k` fills the buffer from the
current `i`, then draws the new `i` and writes.  `none` when the fuel runs out
before a write fails. -/
def child_writes (mwc : Nat → Nat) (write_ret : Nat → Int) (pipefds : List (Int × Int)) :
    Nat → Nat → Int → Option (List Event)
  | 0, _, _ => none
  | fuel + 1, k, i =>
    let buf := memset_buf i
    let j := producer_index (mwc k)
    let ev := Event.write (wfd pipefds j) buf
    if write_ret k < 0 then some [ev, Event.pr_failed_dbg WHAT_WRITE]
    else (child_writes mwc write_ret pipefds fuel (k + 1) j).map (fun t => ev :: t)

/-- The closes of the read ends at lines 101-102, from index `i` on. -/
def close_read_ends (pipefds : List (Int × Int)) : Nat → Nat → List Event
  | 0, _ => []
  | rem + 1, i => Event.close (rfd pipefds i) :: close_read_ends pipefds rem (i + 1)

/-- The closes of the write ends at lines 117-118, from index `i` on. -/
def close_write_ends (pipefds : List (Int × Int)) : Nat → Nat → List Event
  | 0, _ => []
  | rem + 1, i => Event.close (wfd pipefds i) :: close_write_ends pipefds rem (i + 1)

/-- The child branch: the write loop starts with `i = MAX_PIPES`, the value
the closing loop left. -/
def child (mwc : Nat → Nat) (write_ret : Nat → Int) (pipefds : List (Int × Int))
    (fuel : Nat) : Option (List Event) :=
  (child_writes mwc write_ret pipefds fuel 0 MAX_PIPES).map (fun ws =>
    close_read_ends pipefds MAX_PIPES 0 ++ ws ++
      close_write_ends pipefds MAX_PIPES 0 ++ [Event.exit EXIT_SUCCESS])

/-! ## The reading parent (lines 120-181) -/

def FD_ZERO : List Int := []

def FD_SET (fd : Int) (s : List Int) : List Int := if fd ∈ s then s else fd :: s

def FD_ISSET (fd : Int) (s : List Int) : Bool := decide (fd ∈ s)

/-- The timeout `mwc() & 15` of line 143. -/
def poll_timeout (r : Nat) : Nat := (r % UINT64_SIZE) &&& 15

/-- The value `mwc() & 1023` stored in `tv.tv_usec` at line 157. -/
def select_usec (r : Nat) : Nat := (r % UINT64_SIZE) &&& 1023

/-- The set `rfds` built by lines 127-136, from index `i` on. -/
def arm_all (pipefds : List (Int × Int)) : Nat → Nat → List Int → List Int
  | 0, _, s => s
  | rem + 1, i, s => arm_all pipefds rem (i + 1) (FD_SET (rfd pipefds i) s)

/-- The value `maxfd` computed by lines 123-136, from index `i` on. -/
def max_fd (pipefds : List (Int × Int)) : Nat → Nat → Int → Int
  | 0, _, m => m
  | rem + 1, i, m =>
    max_fd pipefds rem (i + 1) (if rfd pipefds i > m then rfd pipefds i else m)

/-- The descriptors `fds[i].fd` stored by line 129, from index `i` on. -/
def poll_fds (pipefds : List (Int × Int)) : Nat → Nat → List Int
  | 0, _ => []
  | rem + 1, i => rfd pipefds i :: poll_fds pipefds rem (i + 1)

/-- Everything the environment feeds into one round of the parent loop. -/
structure IterIn where
  /-- Value of `mwc()` at line 143. -/
  mwc_poll : Nat
  /-- Return value of `poll`. -/
  poll_ret : Int
  /-- Value of `errno` after `poll`. -/
  poll_errno : Int
  /-- The field `fds[i].revents` after `poll`. -/
  revents : Nat → Int
  /-- Result of the read for channel `i` in the poll phase. -/
  poll_reads : Nat → ReadRes
  /-- Value of `mwc()` at line 157. -/
  mwc_select : Nat
  /-- Return value of `select`. -/
  select_ret : Int
  /-- Value of `errno` after `select`. -/
  select_errno : Int
  /-- The set `rfds` as `select` left it. -/
  select_rfds : List Int
  /-- Result of the read for channel `i` in the select phase. -/
  select_reads : Nat → ReadRes
  /-- Value of `opt_do_run` at line 171. -/
  do_run_break : Bool
  /-- Value of `opt_do_run` at line 178. -/
  do_run_while : Bool

/-- The loop of lines 150-152, from index `i` on. -/
def poll_reads (verify : Bool) (pipefds : List (Int × Int)) (x : IterIn) :
    Nat → Nat → List Event
  | 0, _ => []
  | rem + 1, i =>
    (if x.revents i = POLLIN then pipe_read verify (x.poll_reads i) (rfd pipefds i) i
     else []) ++ poll_reads verify pipefds x rem (i + 1)

/-- The poll phase, lines 143-153. -/
def poll_phase (verify : Bool) (pipefds : List (Int × Int)) (x : IterIn) : List Event :=
  Event.poll (poll_fds pipefds MAX_PIPES 0) (poll_timeout x.mwc_poll) ::
    ((if verify && decide (x.poll_ret < 0) && decide (x.poll_errno ≠ EINTR) then
        [Event.pr_fail MSG_POLL_FAILED [x.poll_errno]]
      else []) ++
     (if x.poll_ret > 0 then poll_reads verify pipefds x MAX_PIPES 0 else []))

/-- The loop of lines 165-169, from index `i` on, with the set `rfds` it
reads and updates. -/
def select_reads (verify : Bool) (pipefds : List (Int × Int)) (x : IterIn) :
    Nat → Nat → List Int → List Event × List Int
  | 0, _, rfds => ([], rfds)
  | rem + 1, i, rfds =>
    let ev :=
      if FD_ISSET (rfd pipefds i) rfds then
        pipe_read verify (x.select_reads i) (rfd pipefds i) i
      else []
    let r := select_reads verify pipefds x rem (i + 1) (FD_SET (rfd pipefds i) rfds)
    (ev ++ r.1, r.2)

/-- The select phase, lines 156-170, given the set `rfds` handed to `select`;
gives the calls made and the set `rfds` afterwards. -/
def select_phase (verify : Bool) (pipefds : List (Int × Int)) (maxfd : Int) (x : IterIn)
    (rfds : List Int) : List Event × List Int :=
  let fail :=
    if verify && decide (x.select_ret < 0) && decide (x.select_errno ≠ EINTR) then
      [Event.pr_fail MSG_SELECT_FAILED [x.select_errno]]
    else []
  let r :=
    if x.select_ret > 0 then select_reads verify pipefds x MAX_PIPES 0 x.select_rfds
    else ([], x.select_rfds)
  (Event.select (maxfd + 1) rfds 0 (select_usec x.mwc_select) :: (fail ++ r.1), r.2)

/-- Lines 143-170: one round of the loop up to the check of `opt_do_run`. -/
def consumer_iter (verify : Bool) (pipefds : List (Int × Int)) (maxfd : Int) (x : IterIn)
    (rfds : List Int) : List Event × List Int :=
  let s := select_phase verify pipefds maxfd x rfds
  (poll_phase verify pipefds x ++ s.1, s.2)

/-- The `do ... while` loop of lines 138-178.  Round `k` takes its inputs from
`iter k`; the state is the counter and the set `rfds`.  Gives the final counter
and the calls made, `none` when the fuel runs out first. -/
def consumer_loop (verify : Bool) (pipefds : List (Int × Int)) (maxfd : Int)
    (iter : Nat → IterIn) (max_ops : Nat) :
    Nat → Nat → Nat → List Int → Option (Nat × List Event)
  | 0, _, _, _ => none
  | fuel + 1, k, counter, rfds =>
    let r := consumer_iter verify pipefds maxfd (iter k) rfds
    if !(iter k).do_run_break then some (counter, r.1)
    else
      let counter1 := (counter + 1) % UINT64_SIZE
      if (iter k).do_run_while && (max_ops == 0 || decide (counter1 < max_ops)) then
        (consumer_loop verify pipefds maxfd iter max_ops fuel (k + 1) counter1 r.2).map
          (fun res => (res.1, r.1 ++ Event.sleep 0 :: res.2))
      else some (counter1, r.1 ++ [Event.sleep 0])

/-! ## stress_poll (lines 69-190) -/

/-- The environment of one call. -/
structure Env where
  /-- The flag `opt_flags & OPT_FLAGS_VERIFY`. -/
  verify : Bool
  /-- What `pipe(pipefds[i])` stored, `none` when it failed. -/
  pipe_res : Nat → Option (Int × Int)
  /-- Return value of `fork`. -/
  fork_res : Int
  /-- Inputs of round `k` of the parent loop. -/
  iter : Nat → IterIn
  /-- Value of the call number `k` of `mwc` in the child. -/
  child_mwc : Nat → Nat
  /-- Return value of the write number `k` of the child. -/
  child_write : Nat → Int

/-- How the call ends in the process that runs it. -/
inductive Outcome where
  | returned (ret : Int)
  | exited (status : Int)
  deriving DecidableEq, Repr

/-- End of a call: outcome, final `*counter`, calls made in order. -/
structure Result where
  outcome : Outcome
  counter : Nat
  trace : List Event
  deriving DecidableEq, Repr

/-- The function `stress_poll`, started with `*counter = counter`. -/
def stress_poll (env : Env) (fuel : Nat) (counter : Nat) (max_ops : Nat) : Option Result :=
  match create_pipes env.pipe_res MAX_PIPES 0 [] with
  | (none, tr) => some ⟨Outcome.returned EXIT_FAILURE, counter, tr⟩
  | (some pipefds, tr) =>
    if env.fork_res < 0 then
      some ⟨Outcome.returned EXIT_FAILURE, counter,
        tr ++ Event.fork :: Event.pr_failed_dbg WHAT_FORK :: tidy pipefds MAX_PIPES 0⟩
    else if env.fork_res = 0 then
      (child env.child_mwc env.child_write pipefds fuel).map (fun ws =>
        ⟨Outcome.exited EXIT_SUCCESS, counter, tr ++ Event.fork :: ws⟩)
    else
      (consumer_loop env.verify pipefds (max_fd pipefds MAX_PIPES 0 0) env.iter max_ops
          fuel 0 counter (arm_all pipefds MAX_PIPES 0 FD_ZERO)).map
        (fun res =>
          ⟨Outcome.returned EXIT_SUCCESS, res.1,
            tr ++ Event.fork :: (res.2 ++
              Event.kill env.fork_res SIGKILL :: tidy pipefds MAX_PIPES 0)⟩)

/-! ## Concrete environments -/

/-- Five pipes with the descriptors 3 to 12. -/
def pipes_ok (i : Nat) : Option (Int × Int) := some (3 + 2 * (i : Int), 4 + 2 * (i : Int))

/-- A read that returns nothing. -/
def read_none : ReadRes := ⟨0, fun _ => 0⟩

/-- A round in which `poll` and `select` time out and the run flag is set. -/
def quiet_iter : IterIn :=
  { mwc_poll := 0, poll_ret := 0, poll_errno := 0, revents := fun _ => 0,
    poll_reads := fun _ => read_none, mwc_select := 0, select_ret := 0, select_errno := 0,
    select_rfds := [], select_reads := fun _ => read_none,
    do_run_break := true, do_run_while := true }

/-- All pipes and the fork succeed, every round is quiet. -/
def quiet_env : Env :=
  { verify := true, pipe_res := pipes_ok, fork_res := 100, iter := fun _ => quiet_iter,
    child_mwc := fun _ => 0, child_write := fun _ => 4 }

/-- Channel 0 reports `POLLIN | POLLHUP`, the others nothing, and `poll`
returns 1. -/
def hup_iter : IterIn :=
  { quiet_iter with poll_ret := 1, revents := fun i => if i = 0 then 17 else 0 }

/-- Four bytes, the third one not the tag of channel 1. -/
def one_bad_byte : ReadRes := ⟨4, fun i => if i = 2 then 0 else 49⟩

/-! ## Classifying calls -/

def is_read : Event → Bool
  | Event.read _ _ => true
  | _ => false

def is_close : Event → Bool
  | Event.close _ => true
  | _ => false

def is_kill : Event → Bool
  | Event.kill _ _ => true
  | _ => false

def is_poll : Event → Bool
  | Event.poll _ _ => true
  | _ => false

def is_select : Event → Bool
  | Event.select _ _ _ _ => true
  | _ => false

def is_sleep : Event → Bool
  | Event.sleep _ => true
  | _ => false

def is_fork : Event → Bool
  | Event.fork => true
  | _ => false

/-- The calls `pipe_read` makes: reads and failure reports. -/
def is_io : Event → Bool
  | Event.read _ _ => true
  | Event.pr_fail _ _ => true
  | _ => false

/-- The loop condition of line 178 holds at the end of a round entered with
the counter `c`, and the check of line 171 let the round pass. -/
def continues (x : IterIn) (max_ops c : Nat) : Prop :=
  x.do_run_break = true ∧ x.do_run_while = true ∧
    (max_ops = 0 ∨ (c + 1) % UINT64_SIZE < max_ops)

/-- Counts of the calls of a stretch of the parent loop: `polls` calls of
`poll` and as many of `select`, `sleeps` calls of `sleep`, no `close`, no
`kill`. -/
def round_counts (polls sleeps : Nat) (tr : List Event) : Prop :=
  tr.countP is_poll = polls ∧ tr.countP is_select = polls ∧ tr.countP is_sleep = sleeps ∧
    tr.countP is_close = 0 ∧ tr.countP is_kill = 0

/-- The table `pipefds` once the five `pipe` calls stored the pairs `p 0` to
`p 4`. -/
def pipe_table (p : Nat → Int × Int) : List (Int × Int) := [p 0, p 1, p 2, p 3, p 4]

/-- The five `pipe` calls, in order. -/
def pipe_calls : List Event :=
  [Event.pipe 0, Event.pipe 1, Event.pipe 2, Event.pipe 3, Event.pipe 4]

/-- One `close` for each of the ten ends, read end first, channel 0 to 4. -/
def ten_closes (p : Nat → Int × Int) : List Event :=
  [Event.close (p 0).1, Event.close (p 0).2, Event.close (p 1).1, Event.close (p 1).2,
   Event.close (p 2).1, Event.close (p 2).2, Event.close (p 3).1, Event.close (p 3).2,
   Event.close (p 4).1, Event.close (p 4).2]

/-- One of the `pipe` calls fails, or `fork` does. -/
def setup_failed (env : Env) : Prop :=
  (∃ j, j < MAX_PIPES ∧ env.pipe_res j = none) ∨ env.fork_res < 0

/-- Pipes 0 and 1 are created, the third `pipe` call fails. -/
def pipe_fail_env : Env :=
  { quiet_env with pipe_res := fun i => if i < 2 then pipes_ok i else none }

/-- Everything succeeds, but `fork` fails. -/
def fork_fail_env : Env := { quiet_env with fork_res := -1 }

/-- The run flag is found cleared at line 171 in the third round. -/
def stop_env : Env :=
  { quiet_env with
    iter := fun k => if k = 2 then { quiet_iter with do_run_break := false } else quiet_iter }

/-! ## pipe_read -/

theorem verify_bytes_clean (buf : Nat → Int) (n : Int) :
    ∀ (rem i : Nat), (∀ j, j < rem → buf (i + j) = CHAR_0 + n) →
      verify_bytes buf n rem i = [] := by
  intro rem
  induction rem with
  | zero => intro i _; rfl
  | succ rem ih =>
    intro i h
    have h0 : buf i = CHAR_0 + n := by simpa using h 0 (Nat.succ_pos rem)
    have hrest : ∀ j, j < rem → buf (i + 1 + j) = CHAR_0 + n := by
      intro j hj
      have := h (j + 1) (Nat.succ_lt_succ hj)
      rwa [show i + (j + 1) = i + 1 + j by omega] at this
    simp [verify_bytes, h0, ih (i + 1) hrest]

theorem verify_bytes_dirty (buf : Nat → Int) (n : Int) :
    ∀ (rem i : Nat), (∃ j, j < rem ∧ buf (i + j) ≠ CHAR_0 + n) →
      verify_bytes buf n rem i = [Event.pr_fail MSG_DATA_ERROR []] := by
  intro rem
  induction rem with
  | zero => intro i h; obtain ⟨j, hj, _⟩ := h; omega
  | succ rem ih =>
    intro i h
    by_cases h0 : buf i = CHAR_0 + n
    · obtain ⟨j, hj, hne⟩ := h
      have hj0 : j ≠ 0 := by
        intro hz
        rw [hz] at hne
        exact hne (by simpa using h0)
      obtain ⟨j1, rfl⟩ := Nat.exists_eq_succ_of_ne_zero hj0
      have hex : ∃ j, j < rem ∧ buf (i + 1 + j) ≠ CHAR_0 + n := by
        refine ⟨j1, by omega, ?_⟩
        rwa [show i + 1 + j1 = i + Nat.succ j1 by omega]
      simp [verify_bytes, h0, ih (i + 1) hex]
    · simp [verify_bytes, h0]

theorem verify_bytes_congr (buf buf1 : Nat → Int) (n : Int) :
    ∀ (rem i : Nat), (∀ j, j < rem → buf1 (i + j) = buf (i + j)) →
      verify_bytes buf1 n rem i = verify_bytes buf n rem i := by
  intro rem
  induction rem with
  | zero => intro i _; rfl
  | succ rem ih =>
    intro i h
    have h0 : buf1 i = buf i := by simpa using h 0 (Nat.succ_pos rem)
    have hrest : ∀ j, j < rem → buf1 (i + 1 + j) = buf (i + 1 + j) := by
      intro j hj
      have := h (j + 1) (Nat.succ_lt_succ hj)
      rwa [show i + (j + 1) = i + 1 + j by omega] at this
    simp [verify_bytes, h0, ih (i + 1) hrest]

/-- C4: `pipe_read` makes one read of `POLL_BUF = 4` bytes and at most one
report.  With verification off it reports nothing; with verification on it
reports the read error when `ret < 0`, the data error (a different message)
when `ret > 0` and one of the first `ret` bytes is not `'0' + n`, and nothing
when `ret = 0` or all `ret` bytes are the tag; bytes from index `ret` on do not
influence the outcome. -/
theorem pipe_read_reports (verify : Bool) (rd : ReadRes) (fd n : Int) :
    POLL_BUF = 4 ∧
    (verify = false → pipe_read verify rd fd n = [Event.read fd POLL_BUF]) ∧
    (verify = true → rd.ret < 0 →
      pipe_read verify rd fd n = [Event.read fd POLL_BUF, Event.pr_fail MSG_READ_ERROR []]) ∧
    (verify = true → 0 < rd.ret → (∃ i : Nat, (i : Int) < rd.ret ∧ rd.buf i ≠ CHAR_0 + n) →
      pipe_read verify rd fd n = [Event.read fd POLL_BUF, Event.pr_fail MSG_DATA_ERROR []]) ∧
    (verify = true → 0 ≤ rd.ret → (∀ i : Nat, (i : Int) < rd.ret → rd.buf i = CHAR_0 + n) →
      pipe_read verify rd fd n = [Event.read fd POLL_BUF]) ∧
    MSG_READ_ERROR ≠ MSG_DATA_ERROR ∧
    (∀ rd1 : ReadRes, rd1.ret = rd.ret →
      (∀ i : Nat, (i : Int) < rd.ret → rd1.buf i = rd.buf i) →
      pipe_read verify rd1 fd n = pipe_read verify rd fd n) := by
  refine ⟨rfl, ?_, ?_, ?_, ?_, by decide, ?_⟩
  · intro hv
    simp [pipe_read, hv]
  · intro hv hneg
    simp [pipe_read, hv, hneg]
  · intro hv hpos hex
    obtain ⟨i, hi, hne⟩ := hex
    have hd := verify_bytes_dirty rd.buf n rd.ret.toNat 0
      ⟨i, by omega, by simpa using hne⟩
    have hnn : ¬ rd.ret < 0 := by omega
    simp [pipe_read, hv, hnn, hpos, hd]
  · intro hv hnn hall
    have hc := verify_bytes_clean rd.buf n rd.ret.toNat 0
      (fun j hj => by simpa using hall j (by omega))
    have hnn1 : ¬ rd.ret < 0 := by omega
    by_cases hpos : 0 < rd.ret
    · simp [pipe_read, hv, hnn1, hpos, hc]
    · simp [pipe_read, hv, hnn1, hpos]
  · intro rd1 hret hbuf
    have hc := verify_bytes_congr rd.buf rd1.buf n rd.ret.toNat 0
      (fun j hj => by simpa using hbuf j (by omega))
    simp [pipe_read, hret, hc]

/-- C4 at a concrete read: four bytes for channel 1 with one byte damaged give
the read and exactly one data error. -/
theorem pipe_read_reports_witness :
    pipe_read true one_bad_byte 5 1 =
      [Event.read 5 POLL_BUF, Event.pr_fail MSG_DATA_ERROR []] :=
  (pipe_read_reports true one_bad_byte 5 1).2.2.2.1 rfl (by decide) ⟨2, by decide, by decide⟩

/-! ## Values derived from `mwc` -/

theorem wfd_mem (pipefds : List (Int × Int)) (j : Nat) (h : j < pipefds.length) :
    wfd pipefds j ∈ pipefds.map Prod.snd := by
  unfold wfd
  rw [List.getD_eq_getElem pipefds (0, 0) h]
  exact List.mem_map.mpr ⟨pipefds[j], List.getElem_mem h, rfl⟩

theorem producer_index_lt (r : Nat) : producer_index r < MAX_PIPES := by
  unfold producer_index
  exact Nat.mod_lt _ (by decide)

theorem child_writes_fds (mwc : Nat → Nat) (write_ret : Nat → Int)
    (pipefds : List (Int × Int)) (hlen : pipefds.length = MAX_PIPES) :
    ∀ (fuel k : Nat) (i : Int) (tr : List Event),
      child_writes mwc write_ret pipefds fuel k i = some tr →
      ∀ fd buf, Event.write fd buf ∈ tr → fd ∈ pipefds.map Prod.snd := by
  intro fuel
  induction fuel with
  | zero => intro k i tr h; simp [child_writes] at h
  | succ fuel ih =>
    intro k i tr h fd buf hmem
    have hw : wfd pipefds (producer_index (mwc k)) ∈ pipefds.map Prod.snd :=
      wfd_mem pipefds _ (by rw [hlen]; exact producer_index_lt _)
    simp only [child_writes] at h
    split at h
    · cases h
      simp at hmem
      rw [hmem.1]
      exact hw
    · cases hrec : child_writes mwc write_ret pipefds fuel (k + 1)
          (producer_index (mwc k)) with
      | none => simp [hrec] at h
      | some t =>
        simp [hrec] at h
        subst h
        rcases List.mem_cons.mp hmem with heq | hin
        · cases heq
          exact hw
        · exact ih _ _ t hrec fd buf hin

/-- C8: for every value `r` of `mwc()` the poll timeout `r & 15` is at most 15,
the select timeout is 0 seconds and `r & 1023 ≤ 1023` microseconds, and the
writer's index `(r >> 8) % 5` is below 5, so that the descriptor of every write
of the child is one of the five write ends. -/
theorem mwc_derived_ranges (r : Nat) :
    poll_timeout r ≤ 15 ∧ select_usec r ≤ 1023 ∧ producer_index r < MAX_PIPES ∧
    (∀ (verify : Bool) (pipefds : List (Int × Int)) (maxfd : Int) (x : IterIn)
        (rfds : List Int), x.mwc_select = r →
      (select_phase verify pipefds maxfd x rfds).1.head? =
        some (Event.select (maxfd + 1) rfds 0 (select_usec r))) ∧
    (∀ pipefds : List (Int × Int), pipefds.length = MAX_PIPES →
      wfd pipefds (producer_index r) ∈ pipefds.map Prod.snd) ∧
    (∀ (mwc : Nat → Nat) (write_ret : Nat → Int) (pipefds : List (Int × Int))
        (fuel k : Nat) (i : Int) (tr : List Event), pipefds.length = MAX_PIPES →
      child_writes mwc write_ret pipefds fuel k i = some tr →
      ∀ fd buf, Event.write fd buf ∈ tr → fd ∈ pipefds.map Prod.snd) := by
  refine ⟨Nat.and_le_right, Nat.and_le_right, producer_index_lt r, ?_, ?_, ?_⟩
  · intro verify pipefds maxfd x rfds hx
    simp [select_phase, hx]
  · intro pipefds hlen
    exact wfd_mem pipefds _ (by rw [hlen]; exact producer_index_lt r)
  · intro mwc write_ret pipefds fuel k i tr hlen h
    exact child_writes_fds mwc write_ret pipefds hlen fuel k i tr h

/-- C8 at `r = 2 ^ 64 - 1`: timeouts 15 and 1023, index 0. -/
theorem mwc_derived_ranges_witness :
    poll_timeout (2 ^ 64 - 1) ≤ 15 ∧ select_usec (2 ^ 64 - 1) ≤ 1023 ∧
      producer_index (2 ^ 64 - 1) < MAX_PIPES :=
  ⟨(mwc_derived_ranges (2 ^ 64 - 1)).1, (mwc_derived_ranges (2 ^ 64 - 1)).2.1,
    (mwc_derived_ranges (2 ^ 64 - 1)).2.2.1⟩

/-! ## The tag of a written buffer -/

/-- C1, the code at a failing input: in the child, with `mwc()` returning 256
and then 512, the first write goes to the write end of channel 1 (descriptor 6)
and carries four bytes `'5'`, the second goes to channel 2 (descriptor 8) and
carries four bytes `'1'`: the buffer is filled before the index is drawn. -/
theorem child_writes_stale_tag :
    stress_poll
      { quiet_env with
        fork_res := 0, child_mwc := fun k => 256 * (k + 1),
        child_write := fun k => if k < 1 then 4 else -1 } 2 0 0 =
    some ⟨Outcome.exited EXIT_SUCCESS, 0,
      [Event.pipe 0, Event.pipe 1, Event.pipe 2, Event.pipe 3, Event.pipe 4, Event.fork,
       Event.close 3, Event.close 5, Event.close 7, Event.close 9, Event.close 11,
       Event.write 6 [53, 53, 53, 53], Event.write 8 [49, 49, 49, 49],
       Event.pr_failed_dbg WHAT_WRITE,
       Event.close 4, Event.close 6, Event.close 8, Event.close 10, Event.close 12,
       Event.exit EXIT_SUCCESS]⟩ := by
  decide

/-! ## The set handed to select -/

/-- C9, the code at a failing input: when the first `select` times out
(returns 0 and leaves the set empty), the second `select` is called with the
empty set: the loop that arms the channels again runs only for `ret > 0`. -/
theorem select_set_empty_after_timeout :
    stress_poll quiet_env 2 0 2 =
    some ⟨Outcome.returned EXIT_SUCCESS, 2,
      [Event.pipe 0, Event.pipe 1, Event.pipe 2, Event.pipe 3, Event.pipe 4, Event.fork,
       Event.poll [3, 5, 7, 9, 11] 0, Event.select 12 [11, 9, 7, 5, 3] 0 0, Event.sleep 0,
       Event.poll [3, 5, 7, 9, 11] 0, Event.select 12 [] 0 0, Event.sleep 0,
       Event.kill 100 SIGKILL,
       Event.close 3, Event.close 4, Event.close 5, Event.close 6, Event.close 7,
       Event.close 8, Event.close 9, Event.close 10, Event.close 11, Event.close 12]⟩ := by
  decide

/-! ## The poll phase -/

theorem verify_bytes_io (buf : Nat → Int) (n : Int) :
    ∀ (rem i : Nat), ∀ e ∈ verify_bytes buf n rem i, is_io e = true := by
  intro rem
  induction rem with
  | zero => intro i e he; simp [verify_bytes] at he
  | succ rem ih =>
    intro i e he
    simp only [verify_bytes] at he
    split at he
    · simp at he
      subst he
      rfl
    · exact ih (i + 1) e he

theorem pipe_read_io (verify : Bool) (rd : ReadRes) (fd n : Int) :
    ∀ e ∈ pipe_read verify rd fd n, is_io e = true := by
  intro e he
  simp only [pipe_read] at he
  rcases List.mem_cons.mp he with h | h
  · subst h; rfl
  · split at h
    · split at h
      · simp at h
        subst h
        rfl
      · split at h
        · exact verify_bytes_io _ _ _ _ e h
        · simp at h
    · simp at h

theorem verify_bytes_no_read (buf : Nat → Int) (n : Int) :
    ∀ (rem i : Nat), (verify_bytes buf n rem i).filter is_read = [] := by
  intro rem
  induction rem with
  | zero => intro i; rfl
  | succ rem ih =>
    intro i
    simp only [verify_bytes]
    split
    · rfl
    · exact ih (i + 1)

theorem pipe_read_filter_read (verify : Bool) (rd : ReadRes) (fd n : Int) :
    (pipe_read verify rd fd n).filter is_read = [Event.read fd POLL_BUF] := by
  simp only [pipe_read]
  rw [List.filter_cons_of_pos (by rfl)]
  congr 1
  split
  · split
    · rfl
    · split
      · exact verify_bytes_no_read _ _ _ _
      · rfl
  · rfl

theorem poll_reads_eq (verify : Bool) (pipefds : List (Int × Int)) (x : IterIn) :
    ∀ (rem i : Nat), poll_reads verify pipefds x rem i =
      ((List.range' i rem).filter (fun c => decide (x.revents c = POLLIN))).flatMap
        (fun c => pipe_read verify (x.poll_reads c) (rfd pipefds c) c) := by
  intro rem
  induction rem with
  | zero => intro i; rfl
  | succ rem ih =>
    intro i
    simp only [poll_reads, List.range'_succ]
    by_cases h : x.revents i = POLLIN
    · rw [List.filter_cons_of_pos (by simpa using h), List.flatMap_cons, ih (i + 1)]
      simp [h]
    · rw [List.filter_cons_of_neg (by simpa using h), ih (i + 1)]
      simp [h]

theorem flatMap_pipe_read_filter (verify : Bool) (pipefds : List (Int × Int)) (x : IterIn) :
    ∀ l : List Nat,
      (l.flatMap (fun c => pipe_read verify (x.poll_reads c) (rfd pipefds c) c)).filter
          is_read = l.map (fun c => Event.read (rfd pipefds c) POLL_BUF) := by
  intro l
  induction l with
  | nil => rfl
  | cons a l ih =>
    rw [List.flatMap_cons, List.filter_append, pipe_read_filter_read, ih]
    rfl

/-- C10, as the claim states it, fails: `poll` returns 1 and reports
`POLLIN | POLLHUP` for channel 0, so the bit `POLLIN` is set there, and the
poll phase makes no read at all. -/
theorem poll_phase_skips_pollin_with_pollhup :
    0 < hup_iter.poll_ret ∧ hup_iter.revents 0 = Int.lor POLLIN POLLHUP ∧
    Int.land (hup_iter.revents 0) POLLIN = POLLIN ∧
    (poll_phase true [(3, 4), (5, 6), (7, 8), (9, 10), (11, 12)] hup_iter).filter is_read
      = [] := by
  decide

/-- C10, amended: when `poll` returns a positive count, the poll phase is the
`poll` call followed by `pipe_read(fds[i].fd, i)`, once and in increasing order
of `i`, for the channels whose `revents` is exactly `POLLIN`, and for no other
channel; when `poll` returns 0 or a negative value the phase makes no read. -/
theorem poll_phase_reads (verify : Bool) (pipefds : List (Int × Int)) (x : IterIn) :
    (0 < x.poll_ret →
      poll_phase verify pipefds x =
        Event.poll (poll_fds pipefds MAX_PIPES 0) (poll_timeout x.mwc_poll) ::
          ((List.range MAX_PIPES).filter (fun c => decide (x.revents c = POLLIN))).flatMap
            (fun c => pipe_read verify (x.poll_reads c) (rfd pipefds c) c) ∧
      (poll_phase verify pipefds x).filter is_read =
        ((List.range MAX_PIPES).filter (fun c => decide (x.revents c = POLLIN))).map
          (fun c => Event.read (rfd pipefds c) POLL_BUF)) ∧
    (x.poll_ret ≤ 0 → (poll_phase verify pipefds x).filter is_read = []) := by
  constructor
  · intro hpos
    have hnn : ¬ x.poll_ret < 0 := by omega
    have heq : poll_phase verify pipefds x =
        Event.poll (poll_fds pipefds MAX_PIPES 0) (poll_timeout x.mwc_poll) ::
          ((List.range MAX_PIPES).filter (fun c => decide (x.revents c = POLLIN))).flatMap
            (fun c => pipe_read verify (x.poll_reads c) (rfd pipefds c) c) := by
      simp only [poll_phase]
      rw [poll_reads_eq, List.range_eq_range']
      simp [hnn, hpos]
    refine ⟨heq, ?_⟩
    rw [heq, List.filter_cons_of_neg (by simp [is_read]), flatMap_pipe_read_filter]
  · intro hle
    have hnp : ¬ 0 < x.poll_ret := by omega
    simp only [poll_phase]
    rw [List.filter_cons_of_neg (by simp [is_read])]
    by_cases hf : (verify && decide (x.poll_ret < 0) && decide (x.poll_errno ≠ EINTR)) = true
    · rw [if_pos hf, if_neg hnp]
      rfl
    · rw [if_neg hf, if_neg hnp]
      rfl

/-- C10 amended, at a round where channels 1 and 3 report exactly `POLLIN`:
the reads are those of descriptors 5 and 9, in this order. -/
theorem poll_phase_reads_witness :
    (poll_phase true [(3, 4), (5, 6), (7, 8), (9, 10), (11, 12)]
        { quiet_iter with
          poll_ret := 2, revents := fun i => if i = 1 ∨ i = 3 then POLLIN else 0 }).filter
        is_read =
      [Event.read 5 POLL_BUF, Event.read 9 POLL_BUF] :=
  ((poll_phase_reads true [(3, 4), (5, 6), (7, 8), (9, 10), (11, 12)]
      { quiet_iter with
        poll_ret := 2, revents := fun i => if i = 1 ∨ i = 3 then POLLIN else 0 }).1
    (by decide)).2

/-! ## One round of the parent loop -/

theorem poll_reads_io (verify : Bool) (pipefds : List (Int × Int)) (x : IterIn) :
    ∀ (rem i : Nat), ∀ e ∈ poll_reads verify pipefds x rem i, is_io e = true := by
  intro rem
  induction rem with
  | zero => intro i e he; simp [poll_reads] at he
  | succ rem ih =>
    intro i e he
    simp only [poll_reads] at he
    rcases List.mem_append.mp he with h | h
    · split at h
      · exact pipe_read_io _ _ _ _ e h
      · simp at h
    · exact ih (i + 1) e h

theorem select_reads_io (verify : Bool) (pipefds : List (Int × Int)) (x : IterIn) :
    ∀ (rem i : Nat) (rfds : List Int),
      ∀ e ∈ (select_reads verify pipefds x rem i rfds).1, is_io e = true := by
  intro rem
  induction rem with
  | zero => intro i rfds e he; simp [select_reads] at he
  | succ rem ih =>
    intro i rfds e he
    simp only [select_reads] at he
    rcases List.mem_append.mp he with h | h
    · split at h
      · exact pipe_read_io _ _ _ _ e h
      · simp at h
    · exact ih (i + 1) _ e h

theorem io_counts (tr : List Event) (h : ∀ e ∈ tr, is_io e = true) : round_counts 0 0 tr := by
  have key : ∀ q : Event → Bool, (∀ e, is_io e = true → q e = false) → tr.countP q = 0 := by
    intro q hq
    rw [List.countP_eq_zero]
    intro a ha
    simp [hq a (h a ha)]
  refine ⟨key _ ?_, key _ ?_, key _ ?_, key _ ?_, key _ ?_⟩ <;>
    · intro e he
      cases e <;> first | rfl | simp [is_io] at he

theorem round_counts_append {a b c d : Nat} {t1 t2 : List Event}
    (h1 : round_counts a b t1) (h2 : round_counts c d t2) :
    round_counts (a + c) (b + d) (t1 ++ t2) := by
  obtain ⟨p1, s1, l1, c1, k1⟩ := h1
  obtain ⟨p2, s2, l2, c2, k2⟩ := h2
  refine ⟨?_, ?_, ?_, ?_, ?_⟩ <;> rw [List.countP_append] <;> omega

theorem poll_phase_counts (verify : Bool) (pipefds : List (Int × Int)) (x : IterIn) :
    (poll_phase verify pipefds x).countP is_poll = 1 ∧
    (poll_phase verify pipefds x).countP is_select = 0 ∧
    (poll_phase verify pipefds x).countP is_sleep = 0 ∧
    (poll_phase verify pipefds x).countP is_close = 0 ∧
    (poll_phase verify pipefds x).countP is_kill = 0 := by
  have hio : ∀ e ∈ (if verify && decide (x.poll_ret < 0) && decide (x.poll_errno ≠ EINTR) then
        [Event.pr_fail MSG_POLL_FAILED [x.poll_errno]] else []) ++
      (if x.poll_ret > 0 then poll_reads verify pipefds x MAX_PIPES 0 else []),
      is_io e = true := by
    intro e he
    rcases List.mem_append.mp he with h | h
    · split at h
      · simp at h
        subst h
        rfl
      · simp at h
    · split at h
      · exact poll_reads_io _ _ _ _ _ e h
      · simp at h
  obtain ⟨p1, s1, l1, c1, k1⟩ := io_counts _ hio
  simp only [poll_phase]
  refine ⟨?_, ?_, ?_, ?_, ?_⟩
  · rw [List.countP_cons_of_pos _ _ (by rfl), p1]
  · rw [List.countP_cons_of_neg _ _ (by simp [is_select]), s1]
  · rw [List.countP_cons_of_neg _ _ (by simp [is_sleep]), l1]
  · rw [List.countP_cons_of_neg _ _ (by simp [is_close]), c1]
  · rw [List.countP_cons_of_neg _ _ (by simp [is_kill]), k1]

theorem select_phase_counts (verify : Bool) (pipefds : List (Int × Int)) (maxfd : Int)
    (x : IterIn) (rfds : List Int) :
    (select_phase verify pipefds maxfd x rfds).1.countP is_poll = 0 ∧
    (select_phase verify pipefds maxfd x rfds).1.countP is_select = 1 ∧
    (select_phase verify pipefds maxfd x rfds).1.countP is_sleep = 0 ∧
    (select_phase verify pipefds maxfd x rfds).1.countP is_close = 0 ∧
    (select_phase verify pipefds maxfd x rfds).1.countP is_kill = 0 := by
  have hio : ∀ e ∈ (if verify && decide (x.select_ret < 0) && decide (x.select_errno ≠ EINTR)
        then [Event.pr_fail MSG_SELECT_FAILED [x.select_errno]] else []) ++
      (if x.select_ret > 0 then select_reads verify pipefds x MAX_PIPES 0 x.select_rfds
        else ([], x.select_rfds)).1,
      is_io e = true := by
    intro e he
    rcases List.mem_append.mp he with h | h
    · split at h
      · simp at h
        subst h
        rfl
      · simp at h
    · split at h
      · exact select_reads_io _ _ _ _ _ _ e h
      · simp at h
  obtain ⟨p1, s1, l1, c1, k1⟩ := io_counts _ hio
  simp only [select_phase]
  refine ⟨?_, ?_, ?_, ?_, ?_⟩
  · rw [List.countP_cons_of_neg _ _ (by simp [is_poll]), p1]
  · rw [List.countP_cons_of_pos _ _ (by rfl), s1]
  · rw [List.countP_cons_of_neg _ _ (by simp [is_sleep]), l1]
  · rw [List.countP_cons_of_neg _ _ (by simp [is_close]), c1]
  · rw [List.countP_cons_of_neg _ _ (by simp [is_kill]), k1]

theorem consumer_iter_counts (verify : Bool) (pipefds : List (Int × Int)) (maxfd : Int)
    (x : IterIn) (rfds : List Int) :
    round_counts 1 0 (consumer_iter verify pipefds maxfd x rfds).1 := by
  obtain ⟨p1, s1, l1, c1, k1⟩ := poll_phase_counts verify pipefds x
  obtain ⟨p2, s2, l2, c2, k2⟩ := select_phase_counts verify pipefds maxfd x rfds
  simp only [consumer_iter]
  refine ⟨?_, ?_, ?_, ?_, ?_⟩ <;> rw [List.countP_append] <;> omega

theorem sleep_counts : round_counts 0 1 [Event.sleep 0] := by
  refine ⟨?_, ?_, ?_, ?_, ?_⟩ <;> rfl

/-! ## The parent loop -/

theorem uint64_size_eq : UINT64_SIZE = 18446744073709551616 := by decide

theorem consumer_loop_break (verify : Bool) (pipefds : List (Int × Int)) (maxfd : Int)
    (iter : Nat → IterIn) (max_ops fuel k c : Nat) (rfds : List Int)
    (h : (iter k).do_run_break = false) :
    consumer_loop verify pipefds maxfd iter max_ops (fuel + 1) k c rfds =
      some (c, (consumer_iter verify pipefds maxfd (iter k) rfds).1) := by
  simp [consumer_loop, h]

theorem consumer_loop_stop (verify : Bool) (pipefds : List (Int × Int)) (maxfd : Int)
    (iter : Nat → IterIn) (max_ops fuel k c : Nat) (rfds : List Int)
    (h1 : (iter k).do_run_break = true)
    (h2 : (iter k).do_run_while = false ∨
      (max_ops ≠ 0 ∧ ¬ (c + 1) % UINT64_SIZE < max_ops)) :
    consumer_loop verify pipefds maxfd iter max_ops (fuel + 1) k c rfds =
      some ((c + 1) % UINT64_SIZE,
        (consumer_iter verify pipefds maxfd (iter k) rfds).1 ++ [Event.sleep 0]) := by
  rcases h2 with h2 | ⟨h2, h3⟩
  · simp [consumer_loop, h1, h2]
  · simp [consumer_loop, h1, h2, h3]

theorem consumer_loop_step (verify : Bool) (pipefds : List (Int × Int)) (maxfd : Int)
    (iter : Nat → IterIn) (max_ops fuel k c : Nat) (rfds : List Int)
    (h : continues (iter k) max_ops c) :
    consumer_loop verify pipefds maxfd iter max_ops (fuel + 1) k c rfds =
      (consumer_loop verify pipefds maxfd iter max_ops fuel (k + 1) ((c + 1) % UINT64_SIZE)
          (consumer_iter verify pipefds maxfd (iter k) rfds).2).map
        (fun res =>
          (res.1, (consumer_iter verify pipefds maxfd (iter k) rfds).1 ++
            Event.sleep 0 :: res.2)) := by
  obtain ⟨h1, h2, h3⟩ := h
  rcases h3 with h3 | h3
  · simp [consumer_loop, h1, h2, h3]
  · simp [consumer_loop, h1, h2, h3]

theorem consumer_loop_run (verify : Bool) (pipefds : List (Int × Int)) (maxfd : Int)
    (iter : Nat → IterIn) (max_ops : Nat) :
    ∀ (n k c : Nat) (rfds : List Int), c < UINT64_SIZE →
      (∀ j, j < n → continues (iter (k + j)) max_ops (c + j)) →
      ∃ (rfds1 : List Int) (tr : List Event), round_counts n n tr ∧
        ∀ fuel, consumer_loop verify pipefds maxfd iter max_ops (fuel + n) k c rfds =
          (consumer_loop verify pipefds maxfd iter max_ops fuel (k + n)
              ((c + n) % UINT64_SIZE) rfds1).map
            (fun res => (res.1, tr ++ res.2)) := by
  intro n
  induction n with
  | zero =>
    intro k c rfds hc _
    refine ⟨rfds, [], ⟨rfl, rfl, rfl, rfl, rfl⟩, ?_⟩
    intro fuel
    rw [Nat.add_zero, Nat.add_zero, Nat.add_zero, Nat.mod_eq_of_lt hc]
    cases consumer_loop verify pipefds maxfd iter max_ops fuel k c rfds <;> simp
  | succ n ih =>
    intro k c rfds hc hcont
    have h0 : continues (iter k) max_ops c := by simpa using hcont 0 (Nat.succ_pos n)
    have hc1 : (c + 1) % UINT64_SIZE < UINT64_SIZE := Nat.mod_lt _ (by decide)
    have hrest : ∀ j, j < n →
        continues (iter (k + 1 + j)) max_ops ((c + 1) % UINT64_SIZE + j) := by
      intro j hj
      obtain ⟨a, b, d⟩ := hcont (j + 1) (Nat.succ_lt_succ hj)
      rw [show k + (j + 1) = k + 1 + j by omega] at a b
      refine ⟨a, b, ?_⟩
      rw [uint64_size_eq] at d ⊢
      omega
    obtain ⟨rfds1, tr, htr, hrun⟩ :=
      ih (k + 1) ((c + 1) % UINT64_SIZE)
        (consumer_iter verify pipefds maxfd (iter k) rfds).2 hc1 hrest
    refine ⟨rfds1, (consumer_iter verify pipefds maxfd (iter k) rfds).1 ++
      Event.sleep 0 :: tr, ?_, ?_⟩
    · have h := round_counts_append (consumer_iter_counts verify pipefds maxfd (iter k) rfds)
        (round_counts_append sleep_counts htr)
      rw [show 1 + (0 + n) = n + 1 by omega, show 0 + (1 + n) = n + 1 by omega] at h
      exact h
    · intro fuel
      rw [show fuel + (n + 1) = fuel + n + 1 by omega,
        consumer_loop_step verify pipefds maxfd iter max_ops (fuel + n) k c rfds h0,
        hrun fuel, show k + 1 + n = k + (n + 1) by omega,
        show ((c + 1) % UINT64_SIZE + n) % UINT64_SIZE = (c + (n + 1)) % UINT64_SIZE by
          rw [uint64_size_eq]; omega]
      cases consumer_loop verify pipefds maxfd iter max_ops fuel (k + (n + 1))
        ((c + (n + 1)) % UINT64_SIZE) rfds1 <;> simp

theorem consumer_loop_counts (verify : Bool) (pipefds : List (Int × Int)) (maxfd : Int)
    (iter : Nat → IterIn) (max_ops : Nat) :
    ∀ (fuel k c : Nat) (rfds : List Int) (res : Nat × List Event),
      consumer_loop verify pipefds maxfd iter max_ops fuel k c rfds = some res →
      res.2.countP is_close = 0 ∧ res.2.countP is_kill = 0 := by
  intro fuel
  induction fuel with
  | zero => intro k c rfds res h; simp [consumer_loop] at h
  | succ fuel ih =>
    intro k c rfds res h
    obtain ⟨_, _, _, c1, k1⟩ := consumer_iter_counts verify pipefds maxfd (iter k) rfds
    simp only [consumer_loop] at h
    split at h
    · cases h
      exact ⟨c1, k1⟩
    · split at h
      · cases hrec : consumer_loop verify pipefds maxfd iter max_ops fuel (k + 1)
            ((c + 1) % UINT64_SIZE) (consumer_iter verify pipefds maxfd (iter k) rfds).2 with
        | none => simp [hrec] at h
        | some r =>
          simp [hrec] at h
          obtain ⟨c2, k2⟩ := ih _ _ _ r hrec
          subst h
          refine ⟨?_, ?_⟩
          · show List.countP is_close (_ ++ Event.sleep 0 :: r.2) = 0
            rw [List.countP_append, List.countP_cons_of_neg _ _ (by simp [is_close]), c1, c2]
          · show List.countP is_kill (_ ++ Event.sleep 0 :: r.2) = 0
            rw [List.countP_append, List.countP_cons_of_neg _ _ (by simp [is_kill]), k1, k2]
      · cases h
        refine ⟨?_, ?_⟩
        · show List.countP is_close (_ ++ [Event.sleep 0]) = 0
          rw [List.countP_append, c1]
          rfl
        · show List.countP is_kill (_ ++ [Event.sleep 0]) = 0
          rw [List.countP_append, k1]
          rfl

theorem consumer_loop_isSome (verify : Bool) (pipefds : List (Int × Int)) (maxfd : Int)
    (iter : Nat → IterIn) (max_ops : Nat) :
    ∀ (n k c fuel : Nat) (rfds : List Int), (iter (k + n)).do_run_break = false → n < fuel →
      (consumer_loop verify pipefds maxfd iter max_ops fuel k c rfds).isSome = true := by
  intro n
  induction n with
  | zero =>
    intro k c fuel rfds hb hf
    obtain ⟨f, rfl⟩ := Nat.exists_eq_succ_of_ne_zero (Nat.pos_iff_ne_zero.mp hf)
    rw [consumer_loop_break verify pipefds maxfd iter max_ops f k c rfds (by simpa using hb)]
    rfl
  | succ n ih =>
    intro k c fuel rfds hb hf
    obtain ⟨f, rfl⟩ := Nat.exists_eq_succ_of_ne_zero
      (Nat.pos_iff_ne_zero.mp (Nat.lt_of_le_of_lt (Nat.zero_le _) hf))
    have hrec := ih (k + 1) ((c + 1) % UINT64_SIZE) f
      (consumer_iter verify pipefds maxfd (iter k) rfds).2
      (by rwa [show k + 1 + n = k + (n + 1) by omega]) (by omega)
    simp only [consumer_loop]
    split
    · rfl
    · split
      · rw [Option.isSome_map']
        exact hrec
      · rfl

/-! ## Setup and shutdown -/

theorem create_pipes_ok (pipe_res : Nat → Option (Int × Int)) (p : Nat → Int × Int)
    (h : ∀ i, i < MAX_PIPES → pipe_res i = some (p i)) :
    create_pipes pipe_res MAX_PIPES 0 [] = (some (pipe_table p), pipe_calls) := by
  simp [create_pipes, MAX_PIPES, pipe_table, pipe_calls, h 0 (by decide), h 1 (by decide),
    h 2 (by decide), h 3 (by decide), h 4 (by decide)]

theorem tidy_pipe_table (p : Nat → Int × Int) :
    tidy (pipe_table p) MAX_PIPES 0 = ten_closes p := by
  rfl

theorem create_pipes_none_iff (pipe_res : Nat → Option (Int × Int)) :
    ∀ (rem i : Nat) (pipefds : List (Int × Int)),
      (create_pipes pipe_res rem i pipefds).1 = none ↔
        ∃ j, i ≤ j ∧ j < i + rem ∧ pipe_res j = none := by
  intro rem
  induction rem with
  | zero =>
    intro i pipefds
    simp only [create_pipes]
    constructor
    · intro h; cases h
    · rintro ⟨j, h1, h2, _⟩; omega
  | succ rem ih =>
    intro i pipefds
    simp only [create_pipes]
    cases hi : pipe_res i with
    | none =>
      simp only
      exact ⟨fun _ => ⟨i, Nat.le_refl i, by omega, hi⟩, fun _ => trivial⟩
    | some q =>
      simp only
      rw [ih (i + 1) (pipefds ++ [q])]
      constructor
      · rintro ⟨j, h1, h2, h3⟩
        exact ⟨j, by omega, by omega, h3⟩
      · rintro ⟨j, h1, h2, h3⟩
        have hne : j ≠ i := by
          intro he
          rw [he, hi] at h3
          cases h3
        exact ⟨j, by omega, by omega, h3⟩

theorem stress_poll_of_pipe_failure (env : Env) (fuel c max_ops : Nat)
    (h : ∃ j, j < MAX_PIPES ∧ env.pipe_res j = none) :
    ∃ tr, stress_poll env fuel c max_ops = some ⟨Outcome.returned EXIT_FAILURE, c, tr⟩ := by
  have hn : (create_pipes env.pipe_res MAX_PIPES 0 []).1 = none := by
    rw [create_pipes_none_iff]
    obtain ⟨j, h1, h2⟩ := h
    exact ⟨j, Nat.zero_le j, by omega, h2⟩
  rcases hcp : create_pipes env.pipe_res MAX_PIPES 0 [] with ⟨o, tr⟩
  rw [hcp] at hn
  simp only at hn
  subst hn
  exact ⟨tr, by simp [stress_poll, hcp]⟩

theorem stress_poll_fork_failure (env : Env) (p : Nat → Int × Int) (fuel c max_ops : Nat)
    (hpipes : ∀ i, i < MAX_PIPES → env.pipe_res i = some (p i)) (hfork : env.fork_res < 0) :
    stress_poll env fuel c max_ops =
      some ⟨Outcome.returned EXIT_FAILURE, c,
        pipe_calls ++ Event.fork :: Event.pr_failed_dbg WHAT_FORK :: ten_closes p⟩ := by
  simp [stress_poll, create_pipes_ok env.pipe_res p hpipes, hfork, tidy_pipe_table]

theorem stress_poll_child (env : Env) (p : Nat → Int × Int) (fuel c max_ops : Nat)
    (hpipes : ∀ i, i < MAX_PIPES → env.pipe_res i = some (p i)) (hfork : env.fork_res = 0) :
    stress_poll env fuel c max_ops =
      (child env.child_mwc env.child_write (pipe_table p) fuel).map (fun ws =>
        ⟨Outcome.exited EXIT_SUCCESS, c, pipe_calls ++ Event.fork :: ws⟩) := by
  simp [stress_poll, create_pipes_ok env.pipe_res p hpipes, hfork]

theorem stress_poll_parent (env : Env) (p : Nat → Int × Int) (fuel c max_ops : Nat)
    (hpipes : ∀ i, i < MAX_PIPES → env.pipe_res i = some (p i)) (hfork : 0 < env.fork_res) :
    stress_poll env fuel c max_ops =
      (consumer_loop env.verify (pipe_table p) (max_fd (pipe_table p) MAX_PIPES 0 0) env.iter
          max_ops fuel 0 c (arm_all (pipe_table p) MAX_PIPES 0 FD_ZERO)).map
        (fun res =>
          ⟨Outcome.returned EXIT_SUCCESS, res.1,
            pipe_calls ++ Event.fork :: (res.2 ++
              Event.kill env.fork_res SIGKILL :: ten_closes p)⟩) := by
  have h1 : ¬ env.fork_res < 0 := by omega
  have h2 : ¬ env.fork_res = 0 := by omega
  simp [stress_poll, create_pipes_ok env.pipe_res p hpipes, h1, h2, tidy_pipe_table]

theorem frame_counts (p : Nat → Int × Int) (pid : Int) (body : List Event) :
    (pipe_calls ++ Event.fork :: (body ++ Event.kill pid SIGKILL :: ten_closes p)).countP
        is_poll = body.countP is_poll ∧
    (pipe_calls ++ Event.fork :: (body ++ Event.kill pid SIGKILL :: ten_closes p)).countP
        is_select = body.countP is_select ∧
    (pipe_calls ++ Event.fork :: (body ++ Event.kill pid SIGKILL :: ten_closes p)).countP
        is_sleep = body.countP is_sleep := by
  refine ⟨?_, ?_, ?_⟩
  · rw [List.countP_append, List.countP_cons_of_neg _ _ (by simp [is_poll]),
      List.countP_append, List.countP_cons_of_neg _ _ (by simp [is_poll])]
    have h1 : pipe_calls.countP is_poll = 0 := rfl
    have h2 : (ten_closes p).countP is_poll = 0 := rfl
    omega
  · rw [List.countP_append, List.countP_cons_of_neg _ _ (by simp [is_select]),
      List.countP_append, List.countP_cons_of_neg _ _ (by simp [is_select])]
    have h1 : pipe_calls.countP is_select = 0 := rfl
    have h2 : (ten_closes p).countP is_select = 0 := rfl
    omega
  · rw [List.countP_append, List.countP_cons_of_neg _ _ (by simp [is_sleep]),
      List.countP_append, List.countP_cons_of_neg _ _ (by simp [is_sleep])]
    have h1 : pipe_calls.countP is_sleep = 0 := rfl
    have h2 : (ten_closes p).countP is_sleep = 0 := rfl
    omega

/-! ## The claims on the whole call -/

/-- C2: with a limit `K > 0`, all five pipes created, the fork successful,
`*counter` initially 0 and `opt_do_run` set at every check, the call returns
`EXIT_SUCCESS` with `*counter = K` after exactly `K` rounds (`K` calls each of
`poll`, `select` and `sleep`, the last one right before each increment),
whatever `mwc`, `poll`, `select` and `read` return; fewer than `K` rounds do not
end the loop. -/
theorem stress_poll_runs_to_limit (env : Env) (p : Nat → Int × Int) (K fuel : Nat)
    (hK : 0 < K) (hK64 : K < UINT64_SIZE)
    (hpipes : ∀ i, i < MAX_PIPES → env.pipe_res i = some (p i))
    (hfork : 0 < env.fork_res)
    (hrun : ∀ k, (env.iter k).do_run_break = true ∧ (env.iter k).do_run_while = true)
    (hfuel : K ≤ fuel) :
    (∃ tr, stress_poll env fuel 0 K = some ⟨Outcome.returned EXIT_SUCCESS, K, tr⟩ ∧
      tr.countP is_poll = K ∧ tr.countP is_select = K ∧ tr.countP is_sleep = K) ∧
    (∀ f, f < K → stress_poll env f 0 K = none) := by
  have hM := uint64_size_eq
  have hcont : ∀ n, n < K → ∀ j, j < n → continues (env.iter (0 + j)) K (0 + j) := by
    intro n hn j hj
    refine ⟨(hrun _).1, (hrun _).2, Or.inr ?_⟩
    rw [hM] at hK64 ⊢
    omega
  constructor
  · obtain ⟨rfds1, tr, htr, hrun1⟩ :=
      consumer_loop_run env.verify (pipe_table p) (max_fd (pipe_table p) MAX_PIPES 0 0)
        env.iter K (K - 1) 0 0 (arm_all (pipe_table p) MAX_PIPES 0 FD_ZERO) (by decide)
        (hcont (K - 1) (by omega))
    have hlast := consumer_loop_stop env.verify (pipe_table p)
      (max_fd (pipe_table p) MAX_PIPES 0 0) env.iter K (fuel - K) (0 + (K - 1))
      ((0 + (K - 1)) % UINT64_SIZE) rfds1 (hrun _).1
      (Or.inr ⟨by omega, by rw [hM] at hK64 ⊢; omega⟩)
    have hcnt : ((0 + (K - 1)) % UINT64_SIZE + 1) % UINT64_SIZE = K := by
      rw [hM] at hK64 ⊢
      omega
    rw [hcnt] at hlast
    have hloop := hrun1 (fuel - K + 1)
    rw [show fuel - K + 1 + (K - 1) = fuel by omega, hlast] at hloop
    have hbody := round_counts_append htr
      (round_counts_append
        (consumer_iter_counts env.verify (pipe_table p) (max_fd (pipe_table p) MAX_PIPES 0 0)
          (env.iter (0 + (K - 1))) rfds1) sleep_counts)
    obtain ⟨b1, b2, b3, _, _⟩ := hbody
    obtain ⟨f1, f2, f3⟩ := frame_counts p env.fork_res
      (tr ++ ((consumer_iter env.verify (pipe_table p) (max_fd (pipe_table p) MAX_PIPES 0 0)
        (env.iter (0 + (K - 1))) rfds1).1 ++ [Event.sleep 0]))
    refine ⟨_, ?_, f1.trans (b1.trans (by omega)), f2.trans (b2.trans (by omega)),
      f3.trans (b3.trans (by omega))⟩
    rw [stress_poll_parent env p fuel 0 K hpipes hfork, hloop]
    rfl
  · intro f hf
    obtain ⟨rfds1, tr, _, hrun1⟩ :=
      consumer_loop_run env.verify (pipe_table p) (max_fd (pipe_table p) MAX_PIPES 0 0)
        env.iter K f 0 0 (arm_all (pipe_table p) MAX_PIPES 0 FD_ZERO) (by decide)
        (hcont f hf)
    have hloop := hrun1 0
    rw [Nat.zero_add] at hloop
    rw [stress_poll_parent env p f 0 K hpipes hfork, hloop]
    rfl

/-- C2 at the limit 2: two quiet rounds, then the call returns `EXIT_SUCCESS`
with the counter at 2. -/
theorem stress_poll_runs_to_limit_witness :
    (∃ tr, stress_poll quiet_env 2 0 2 = some ⟨Outcome.returned EXIT_SUCCESS, 2, tr⟩ ∧
      tr.countP is_poll = 2 ∧ tr.countP is_select = 2 ∧ tr.countP is_sleep = 2) ∧
    (∀ f, f < 2 → stress_poll quiet_env f 0 2 = none) :=
  stress_poll_runs_to_limit quiet_env (fun i => (3 + 2 * (i : Int), 4 + 2 * (i : Int))) 2 2
    (by decide) (by decide) (fun _ _ => rfl) (by decide) (fun _ => ⟨rfl, rfl⟩) (Nat.le_refl 2)

/-- C7: when `opt_do_run` is found cleared at the check after the select phase
of a round, the loop ends in that round and the counter is the one the round
began with; this holds in any state of the loop and for any limit, 0 included.
On the whole call: after `n` rounds that continue, a round that finds the flag
cleared ends the call with `EXIT_SUCCESS`, the counter advanced `n` times only,
and `n + 1` calls each of `poll` and `select` in all. -/
theorem stress_poll_stops_on_cleared_flag (env : Env) (p : Nat → Int × Int)
    (n fuel c max_ops : Nat) (hc : c < UINT64_SIZE)
    (hpipes : ∀ i, i < MAX_PIPES → env.pipe_res i = some (p i))
    (hfork : 0 < env.fork_res)
    (hcont : ∀ j, j < n → continues (env.iter j) max_ops (c + j))
    (hbrk : (env.iter n).do_run_break = false) (hfuel : n < fuel) :
    (∃ tr, stress_poll env fuel c max_ops =
        some ⟨Outcome.returned EXIT_SUCCESS, (c + n) % UINT64_SIZE, tr⟩ ∧
      tr.countP is_poll = n + 1 ∧ tr.countP is_select = n + 1 ∧ tr.countP is_sleep = n) ∧
    (∀ (pipefds : List (Int × Int)) (maxfd : Int) (f k c1 limit : Nat) (rfds : List Int),
      (env.iter k).do_run_break = false →
      consumer_loop env.verify pipefds maxfd env.iter limit (f + 1) k c1 rfds =
        some (c1, (consumer_iter env.verify pipefds maxfd (env.iter k) rfds).1)) := by
  constructor
  · obtain ⟨rfds1, tr, htr, hrun1⟩ :=
      consumer_loop_run env.verify (pipe_table p) (max_fd (pipe_table p) MAX_PIPES 0 0)
        env.iter max_ops n 0 c (arm_all (pipe_table p) MAX_PIPES 0 FD_ZERO) hc
        (fun j hj => by rw [Nat.zero_add]; exact hcont j hj)
    have hlast := consumer_loop_break env.verify (pipe_table p)
      (max_fd (pipe_table p) MAX_PIPES 0 0) env.iter max_ops (fuel - n - 1) (0 + n)
      ((c + n) % UINT64_SIZE) rfds1 (by rw [Nat.zero_add]; exact hbrk)
    have hloop := hrun1 (fuel - n - 1 + 1)
    rw [show fuel - n - 1 + 1 + n = fuel by omega, hlast] at hloop
    have hbody := round_counts_append htr
      (consumer_iter_counts env.verify (pipe_table p) (max_fd (pipe_table p) MAX_PIPES 0 0)
        (env.iter (0 + n)) rfds1)
    obtain ⟨b1, b2, b3, _, _⟩ := hbody
    obtain ⟨f1, f2, f3⟩ := frame_counts p env.fork_res
      (tr ++ (consumer_iter env.verify (pipe_table p) (max_fd (pipe_table p) MAX_PIPES 0 0)
        (env.iter (0 + n)) rfds1).1)
    refine ⟨_, ?_, f1.trans b1, f2.trans b2, f3.trans (b3.trans (by omega))⟩
    rw [stress_poll_parent env p fuel c max_ops hpipes hfork, hloop]
    rfl
  · intro pipefds maxfd f k c1 limit rfds hk
    exact consumer_loop_break env.verify pipefds maxfd env.iter limit f k c1 rfds hk

/-- C7 with no limit: two rounds continue, the third finds the flag cleared;
the call returns `EXIT_SUCCESS` with the counter at 2 after three `poll`s. -/
theorem stress_poll_stops_on_cleared_flag_witness :
    ∃ tr, stress_poll stop_env 3 0 0 =
        some ⟨Outcome.returned EXIT_SUCCESS, (0 + 2) % UINT64_SIZE, tr⟩ ∧
      tr.countP is_poll = 2 + 1 ∧ tr.countP is_select = 2 + 1 ∧ tr.countP is_sleep = 2 :=
  (stress_poll_stops_on_cleared_flag stop_env
    (fun i => (3 + 2 * (i : Int), 4 + 2 * (i : Int))) 2 3 0 0 (by decide) (fun _ _ => rfl)
    (by decide)
    (fun j hj => by
      have h : j = 0 ∨ j = 1 := by omega
      rcases h with h | h <;> subst h <;> exact ⟨rfl, rfl, Or.inl rfl⟩)
    rfl (by decide)).1

/-- C3: the call returns `EXIT_FAILURE` exactly when a `pipe` call or `fork`
failed.  If one did, it returns `EXIT_FAILURE` (and it does return).  If none
did, it never returns `EXIT_FAILURE`: the parent returns `EXIT_SUCCESS`
whatever `poll`, `select` and `read` gave and whatever was reported, and it does
return once a round finds the run flag cleared; the forked child leaves through
`exit(EXIT_SUCCESS)`. -/
theorem stress_poll_return_value (env : Env) (c max_ops : Nat) :
    (setup_failed env → ∀ fuel, ∃ tr,
      stress_poll env fuel c max_ops = some ⟨Outcome.returned EXIT_FAILURE, c, tr⟩) ∧
    (¬ setup_failed env → ∀ fuel res, stress_poll env fuel c max_ops = some res →
      res.outcome ≠ Outcome.returned EXIT_FAILURE ∧
      (0 < env.fork_res → res.outcome = Outcome.returned EXIT_SUCCESS) ∧
      (env.fork_res = 0 → res.outcome = Outcome.exited EXIT_SUCCESS)) ∧
    (¬ setup_failed env → 0 < env.fork_res → ∀ n, (env.iter n).do_run_break = false →
      ∀ fuel, n < fuel → ∃ res, stress_poll env fuel c max_ops = some res ∧
        res.outcome = Outcome.returned EXIT_SUCCESS) := by
  have hp : ¬ setup_failed env →
      ∀ i, i < MAX_PIPES → env.pipe_res i = some ((env.pipe_res i).getD (0, 0)) := by
    intro hns i hi
    cases h : env.pipe_res i with
    | none => exact absurd (Or.inl ⟨i, hi, h⟩) hns
    | some q => rfl
  refine ⟨?_, ?_, ?_⟩
  · intro hs fuel
    by_cases hpf : ∃ j, j < MAX_PIPES ∧ env.pipe_res j = none
    · exact stress_poll_of_pipe_failure env fuel c max_ops hpf
    · have hfork : env.fork_res < 0 := by
        rcases hs with h | h
        · exact absurd h hpf
        · exact h
      have hall : ∀ i, i < MAX_PIPES → env.pipe_res i = some ((env.pipe_res i).getD (0, 0)) := by
        intro i hi
        cases h : env.pipe_res i with
        | none => exact absurd ⟨i, hi, h⟩ hpf
        | some q => rfl
      exact ⟨_, stress_poll_fork_failure env _ fuel c max_ops hall hfork⟩
  · intro hns fuel res hres
    have hnf : ¬ env.fork_res < 0 := fun h => hns (Or.inr h)
    by_cases h0 : env.fork_res = 0
    · rw [stress_poll_child env _ fuel c max_ops (hp hns) h0] at hres
      obtain ⟨ws, _, hw⟩ := Option.map_eq_some'.mp hres
      subst hw
      exact ⟨by simp, fun h => by omega, fun _ => rfl⟩
    · have hpos : 0 < env.fork_res := by omega
      rw [stress_poll_parent env _ fuel c max_ops (hp hns) hpos] at hres
      obtain ⟨r, _, hw⟩ := Option.map_eq_some'.mp hres
      subst hw
      exact ⟨by simp [EXIT_SUCCESS, EXIT_FAILURE], fun _ => rfl, fun h => absurd h h0⟩
  · intro hns hpos n hb fuel hf
    have hsome := consumer_loop_isSome env.verify
      (pipe_table fun i => (env.pipe_res i).getD (0, 0))
      (max_fd (pipe_table fun i => (env.pipe_res i).getD (0, 0)) MAX_PIPES 0 0) env.iter
      max_ops n 0 c fuel
      (arm_all (pipe_table fun i => (env.pipe_res i).getD (0, 0)) MAX_PIPES 0 FD_ZERO)
      (by rw [Nat.zero_add]; exact hb) hf
    obtain ⟨r, hr⟩ := Option.isSome_iff_exists.mp hsome
    rw [stress_poll_parent env _ fuel c max_ops (hp hns) hpos, hr]
    exact ⟨_, rfl, rfl⟩

/-- C3 when the third `pipe` call fails: the call returns `EXIT_FAILURE`. -/
theorem stress_poll_return_value_witness :
    ∃ tr, stress_poll pipe_fail_env 0 7 0 = some ⟨Outcome.returned EXIT_FAILURE, 7, tr⟩ :=
  (stress_poll_return_value pipe_fail_env 7 0).1 (Or.inl ⟨2, by decide, rfl⟩) 0

/-- C5: when `pipe` succeeds for the channels below `j` and fails for channel
`j`, the call makes the `pipe` calls 0 to `j`, reports the failure, closes the
read end and the write end of the channels `j - 1` down to 0, once each, and
returns `EXIT_FAILURE` with `*counter` unchanged: no other descriptor is closed,
and there is no `fork`, no `poll`, no `select` and no `kill`. -/
theorem stress_poll_pipe_failure (env : Env) (p : Nat → Int × Int) (j fuel c max_ops : Nat)
    (hj : j < MAX_PIPES) (hok : ∀ i, i < j → env.pipe_res i = some (p i))
    (hfail : env.pipe_res j = none) :
    stress_poll env fuel c max_ops =
      some ⟨Outcome.returned EXIT_FAILURE, c,
        (List.range (j + 1)).map Event.pipe ++ Event.pr_failed_dbg WHAT_PIPE ::
          (List.range j).reverse.flatMap
            (fun i => [Event.close (p i).1, Event.close (p i).2])⟩ ∧
    (∀ e ∈ (List.range (j + 1)).map Event.pipe ++ Event.pr_failed_dbg WHAT_PIPE ::
          (List.range j).reverse.flatMap
            (fun i => [Event.close (p i).1, Event.close (p i).2]),
      is_fork e = false ∧ is_poll e = false ∧ is_select e = false ∧ is_kill e = false) := by
  have hj5 : j = 0 ∨ j = 1 ∨ j = 2 ∨ j = 3 ∨ j = 4 := by
    have : j < 5 := hj
    omega
  constructor
  · rcases hj5 with h | h | h | h | h <;> subst h
    · simp [stress_poll, create_pipes, MAX_PIPES, hfail, unwind_pipes, List.range_succ]
    · simp [stress_poll, create_pipes, MAX_PIPES, hfail, unwind_pipes, hok 0 (by decide),
        rfd, wfd, List.range_succ]
    · simp [stress_poll, create_pipes, MAX_PIPES, hfail, unwind_pipes, hok 0 (by decide),
        hok 1 (by decide), rfd, wfd, List.range_succ]
    · simp [stress_poll, create_pipes, MAX_PIPES, hfail, unwind_pipes, hok 0 (by decide),
        hok 1 (by decide), hok 2 (by decide), rfd, wfd, List.range_succ]
    · simp [stress_poll, create_pipes, MAX_PIPES, hfail, unwind_pipes, hok 0 (by decide),
        hok 1 (by decide), hok 2 (by decide), hok 3 (by decide), rfd, wfd, List.range_succ]
  · intro e he
    rcases List.mem_append.mp he with h | h
    · obtain ⟨i, _, rfl⟩ := List.mem_map.mp h
      exact ⟨rfl, rfl, rfl, rfl⟩
    · rcases List.mem_cons.mp h with h | h
      · subst h
        exact ⟨rfl, rfl, rfl, rfl⟩
      · obtain ⟨i, _, hi⟩ := List.mem_flatMap.mp h
        simp at hi
        rcases hi with hi | hi <;> subst hi <;> exact ⟨rfl, rfl, rfl, rfl⟩

/-- C5 when the third `pipe` call fails: the ends of channel 1, then those of
channel 0 are closed, and the call returns `EXIT_FAILURE`. -/
theorem stress_poll_pipe_failure_witness :
    stress_poll pipe_fail_env 0 7 0 =
      some ⟨Outcome.returned EXIT_FAILURE, 7,
        [Event.pipe 0, Event.pipe 1, Event.pipe 2, Event.pr_failed_dbg WHAT_PIPE,
         Event.close 5, Event.close 6, Event.close 3, Event.close 4]⟩ :=
  (stress_poll_pipe_failure pipe_fail_env
    (fun i => (3 + 2 * (i : Int), 4 + 2 * (i : Int))) 2 0 7 0 (by decide)
    (fun i hi => by
      have h : i = 0 ∨ i = 1 := by omega
      rcases h with h | h <;> subst h <;> rfl)
    rfl).1.trans (by decide)

/-- C6: with all five pipes created, the parent ends with one `close` for each
of the ten ends and nothing after them.  When `fork` fails these closes follow
the failure report directly: no `kill`, no round of the loop, and the call
returns `EXIT_FAILURE`.  When `fork` succeeds, whenever the call returns, the
calls of the loop (none of them a `close` or a `kill`) are followed by exactly
one `kill(pid, SIGKILL)` and then the ten closes; and it does return once a
round finds the run flag cleared. -/
theorem stress_poll_shutdown (env : Env) (p : Nat → Int × Int) (c max_ops : Nat)
    (hpipes : ∀ i, i < MAX_PIPES → env.pipe_res i = some (p i)) :
    (env.fork_res < 0 → ∀ fuel,
      stress_poll env fuel c max_ops =
        some ⟨Outcome.returned EXIT_FAILURE, c,
          pipe_calls ++ Event.fork :: Event.pr_failed_dbg WHAT_FORK :: ten_closes p⟩) ∧
    (0 < env.fork_res → ∀ fuel res, stress_poll env fuel c max_ops = some res →
      ∃ body, res.trace = pipe_calls ++ Event.fork ::
          (body ++ Event.kill env.fork_res SIGKILL :: ten_closes p) ∧
        body.countP is_close = 0 ∧ body.countP is_kill = 0) ∧
    (0 < env.fork_res → ∀ n, (env.iter n).do_run_break = false → ∀ fuel, n < fuel →
      (stress_poll env fuel c max_ops).isSome = true) := by
  refine ⟨?_, ?_, ?_⟩
  · intro hneg fuel
    exact stress_poll_fork_failure env p fuel c max_ops hpipes hneg
  · intro hpos fuel res hres
    rw [stress_poll_parent env p fuel c max_ops hpipes hpos] at hres
    obtain ⟨r, hl, hw⟩ := Option.map_eq_some'.mp hres
    subst hw
    obtain ⟨h1, h2⟩ := consumer_loop_counts env.verify (pipe_table p)
      (max_fd (pipe_table p) MAX_PIPES 0 0) env.iter max_ops fuel 0 c
      (arm_all (pipe_table p) MAX_PIPES 0 FD_ZERO) r hl
    exact ⟨r.2, rfl, h1, h2⟩
  · intro hpos n hb fuel hf
    rw [stress_poll_parent env p fuel c max_ops hpipes hpos, Option.isSome_map']
    exact consumer_loop_isSome env.verify (pipe_table p) (max_fd (pipe_table p) MAX_PIPES 0 0)
      env.iter max_ops n 0 c fuel (arm_all (pipe_table p) MAX_PIPES 0 FD_ZERO)
      (by rw [Nat.zero_add]; exact hb) hf

/-- C6 when `fork` fails: the ten closes follow the report, and the call
returns `EXIT_FAILURE`. -/
theorem stress_poll_shutdown_witness :
    stress_poll fork_fail_env 0 7 0 =
      some ⟨Outcome.returned EXIT_FAILURE, 7,
        pipe_calls ++ Event.fork :: Event.pr_failed_dbg WHAT_FORK ::
          ten_closes (fun i => (3 + 2 * (i : Int), 4 + 2 * (i : Int)))⟩ :=
  (stress_poll_shutdown fork_fail_env (fun i => (3 + 2 * (i : Int), 4 + 2 * (i : Int))) 7 0
    (fun _ _ => rfl)).1 (by decide) 0

end StressPoll
